import Mathlib

/-!
Verification of the kyua process lifecycle subsystem and the `list`
subcommand.  The process primitives (`status`, `exec`, `fork_files`,
`wait_any`) are declared in headers and exercised by
`src/utils/process/operations_test.cpp`; their behaviour is modelled here
from the specification.  The `list` subcommand is translated from
`src/cli/cmd_list.cpp`.
-/

namespace Kyua

/-- Exit code for success (`EXIT_SUCCESS` of the C standard library). -/
def EXIT_SUCCESS : Nat := 0

/-- Exit code for failure (`EXIT_FAILURE` of the C standard library). -/
def EXIT_FAILURE : Nat := 1

/-- Signal number of `SIGABRT` on the target platforms. -/
def SIGABRT : Nat := 6

/-- Errno value `ECHILD` ("no child processes") on the target platforms. -/
def ECHILD : Nat := 10

/-- Modelled from the spec: `utils::process::status` (declared in
`status.hpp`, missing from src/).  A terminated process either exited
cleanly with a code or was terminated by a signal, possibly dumping core;
this is the full outcome vocabulary. -/
inductive status where
  | exited (code : Nat)
  | signaled (signal_number : Nat) (dumped_core : Bool)
  deriving DecidableEq

/-- Whether the process exited cleanly (`status::exited()`). -/
def status.isExited : status → Bool
  | status.exited _ => true
  | status.signaled _ _ => false

/-- Whether the process was terminated by a signal (`status::signaled()`). -/
def status.isSignaled : status → Bool
  | status.exited _ => false
  | status.signaled _ _ => true

/-- The exit code (`status::exitstatus()`); meaningful only for a clean
exit, hence `none` on the signal path. -/
def status.exitstatus : status → Option Nat
  | status.exited code => some code
  | status.signaled _ _ => none

/-- The terminating signal (`status::termsig()`); meaningful only for a
signalled termination, hence `none` on the clean-exit path. -/
def status.termsig : status → Option Nat
  | status.exited _ => none
  | status.signaled s _ => some s

/-- Whether a core dump was produced (`status::coredump()`); meaningful
only for a signalled termination. -/
def status.coredump : status → Option Bool
  | status.exited _ => none
  | status.signaled _ d => some d

/-- Modelled from the spec: the observable behaviour of one run of an
external program: its exit code and the lines written to its standard
streams. -/
structure child_result where
  exit_code : Nat
  stdout_lines : List String
  stderr_lines : List String
  deriving DecidableEq

/-- Modelled from the spec: the ambient operating-system environment.
`programs` maps an executable path to its behaviour on a full argv
(`none` when the path does not name an executable file); `fork_ok` tells
whether process duplication succeeds; `abort_core` tells whether the
abort signal produces a core dump on this platform. -/
structure world where
  programs : String → Option (List String → child_result)
  fork_ok : Bool
  abort_core : Bool

/-- Modelled from the spec: everything the parent can observe after a
`fork_files` child terminates: its terminal status and the contents of
the two capture files. -/
structure child_outcome where
  wait_status : status
  stdout_file : List String
  stderr_file : List String
  deriving DecidableEq

/-- Modelled from the spec: `process::exec(program, args)` run as the body
of a just-duplicated child with both streams captured (missing from src/;
exercised by `operations_test.cpp`).  On success the image is replaced and
the child shows the external program's behaviour, with argv[0] supplied
implicitly from the program path.  On failure the child writes a
`Failed to execute <program>: <reason>` diagnostic to stderr and aborts
with `SIGABRT`, never exiting cleanly. -/
def exec (w : world) (program : String) (args : List String) : child_outcome :=
  match w.programs program with
  | some behavior =>
    let r := behavior (program :: args)
    ⟨status.exited r.exit_code, r.stdout_lines, r.stderr_lines⟩
  | none =>
    ⟨status.signaled SIGABRT w.abort_core, [],
      ["Failed to execute " ++ program ++ ": No such file or directory"]⟩

/-- Parent-visible spawn failure: the OS could not duplicate the process. -/
inductive spawn_error where
  | fork_failed
  deriving DecidableEq

/-- Modelled from the spec: `child::fork_files` with an exec body followed
by `wait` on the handle (missing from src/).  Duplication failure is the
only parent-visible error; once the child exists its whole fate is the
`exec` outcome above, reported through the status and the capture files. -/
def fork_files_exec (w : world) (program : String) (args : List String) :
    Except spawn_error child_outcome :=
  if w.fork_ok then Except.ok (exec w program args)
  else Except.error spawn_error.fork_failed

/-- Modelled from the spec: the argv-printing loop of the `print-args`
test helper: one `argv[i] = value` line per argument, indices counting
from `i`. -/
def print_args_lines : Nat → List String → List String
  | _, [] => []
  | i, a :: rest =>
    ("argv[" ++ toString i ++ "] = " ++ a) :: print_args_lines (i + 1) rest

/-- Modelled from the spec: the test `helpers` binary (missing from src/;
exercised by `operations_test.cpp`).  With no arguments it exits with
`EXIT_FAILURE` after printing `Must provide a helper name` to stderr; when
the first argument is `print-args` it prints every argument 1-indexed
(argv[0] excluded) and exits with `EXIT_SUCCESS`. -/
def helpers_behavior (argv : List String) : child_result :=
  match argv with
  | [] => ⟨EXIT_FAILURE, [], ["Must provide a helper name"]⟩
  | _ :: args =>
    match args with
    | [] => ⟨EXIT_FAILURE, [], ["Must provide a helper name"]⟩
    | name :: _ =>
      if name = "print-args" then
        ⟨EXIT_SUCCESS, print_args_lines 1 args, []⟩
      else
        ⟨EXIT_FAILURE, [], ["Unknown helper " ++ name]⟩

/-- Error carrying the originating OS errno (`process::system_error`). -/
structure system_error where
  message : String
  original_errno : Nat
  deriving DecidableEq

/-- Modelled from the spec: the process-wide reaper tracking table: the
pid of each spawned, not-yet-reaped child together with the terminal
status it will report. -/
abbrev reaper_table := List (Nat × status)

/-- Modelled from the spec: `process::wait_any` (missing from src/).
With no tracked children it fails synchronously with the OS `ECHILD`
error; otherwise it reaps one tracked child (which one is unspecified;
the `choice` argument selects it) and removes it from the table. -/
def wait_any (choice : Nat) (table : reaper_table) :
    Except system_error ((Nat × status) × reaper_table) :=
  if h : table.length = 0 then
    Except.error ⟨"Failed to wait for any process", ECHILD⟩
  else
    let i : Fin table.length :=
      ⟨choice % table.length, Nat.mod_lt _ (Nat.pos_of_ne_zero h)⟩
    Except.ok (table.get i, table.eraseIdx i.val)

/-- Calls `wait_any` once per element of the choice sequence, collecting
the reaped (pid, status) pairs in order. -/
def wait_all : List Nat → reaper_table → List (Nat × status) × reaper_table
  | [], table => ([], table)
  | c :: cs, table =>
    match wait_any c table with
    | Except.error _ => ([], table)
    | Except.ok (r, t1) =>
      let rest := wait_all cs t1
      (r :: rest.1, rest.2)

/-- An operation against the reaper: spawn a capture-only child that will
terminate with the given status, or call `wait_any` (with an
unspecified-selection choice). -/
inductive reaper_op where
  | spawn (pid : Nat) (st : status)
  | wait (choice : Nat)
  deriving DecidableEq

/-- The observable event of one reaper operation. -/
inductive reaper_event where
  | spawned (pid : Nat)
  | reaped (pid : Nat) (st : status)
  | wait_failed (e : system_error)
  deriving DecidableEq

/-- One reaper step: a spawn inserts into the tracking table; a wait
reaps through `wait_any`. -/
def step (t : reaper_table) : reaper_op → reaper_table × reaper_event
  | reaper_op.spawn pid st => ((pid, st) :: t, reaper_event.spawned pid)
  | reaper_op.wait c =>
    match wait_any c t with
    | Except.error e => (t, reaper_event.wait_failed e)
    | Except.ok (r, t1) => (t1, reaper_event.reaped r.1 r.2)

/-- The event trace of running a whole operation sequence from a table. -/
def run_ops (t : reaper_table) : List reaper_op → List reaper_event
  | [] => []
  | op :: ops => (step t op).2 :: run_ops (step t op).1 ops

/-- The pids currently tracked by the table. -/
def pids (t : reaper_table) : List Nat := t.map Prod.fst

/-- Whether one operation respects OS pid freshness against the current
table: a spawn never reuses the pid of a live, unreaped child. -/
def spawn_ok (t : reaper_table) : reaper_op → Bool
  | reaper_op.spawn pid _ => !(pids t).contains pid
  | reaper_op.wait _ => true

/-- Whether a whole operation sequence respects OS pid freshness at every
step. -/
def fresh_trace (t : reaper_table) : List reaper_op → Bool
  | [] => true
  | op :: ops => spawn_ok t op && fresh_trace (step t op).1 ops

/-- A test case as the list subcommand sees it (engine collaborator,
abstracted at its boundary): identifier, test suite name and the
properties map as an association list. -/
structure test_case where
  identifier : String
  test_suite_name : String
  all_properties : List (String × String)
  deriving DecidableEq

/-- A test program as the list subcommand sees it: its relative path and
the outcome of gathering its test case list, which may fail with an
engine error message. -/
structure test_program where
  relative_path : String
  test_cases : Except String (List test_case)

/-- The filters state (cli collaborator, abstracted at its boundary):
whether a test program path or a test case identifier matches, and what
`report_unused_filters` reports after the run. -/
structure filters_state where
  match_test_program : String → Bool
  match_test_case : String → Bool
  report_unused_filters : Bool

/-- Translation of `cli::detail::list_test_case`: non-verbose prints the
identifier alone; verbose prints `id (suite)` and one indented
`key = value` line per property. -/
def list_test_case (verbose : Bool) (tc : test_case) : List String :=
  if !verbose then
    [tc.identifier]
  else
    (tc.identifier ++ " (" ++ tc.test_suite_name ++ ")") ::
      tc.all_properties.map (fun p => "    " ++ p.1 ++ " = " ++ p.2)

/-- Translation of the loop of `cli::detail::list_test_program` over the
gathered test cases: prints each test case whose identifier matches the
filters, in order. -/
def list_test_program (verbose : Bool) (filters : filters_state) :
    List test_case → List String
  | [] => []
  | tc :: rest =>
    (if filters.match_test_case tc.identifier then list_test_case verbose tc
     else []) ++ list_test_program verbose filters rest

/-- Translation of the loop of `cli::cmd_list::run`: yields (ok flag,
output lines, warning lines).  A matched program whose test case
gathering fails contributes one warning and clears the ok flag, and
processing continues with the remaining programs. -/
def run_list_loop (verbose : Bool) (filters : filters_state) :
    List test_program → Bool × List String × List String
  | [] => (true, [], [])
  | tp :: rest =>
    if filters.match_test_program tp.relative_path then
      match tp.test_cases with
      | Except.ok tcs =>
        let r := run_list_loop verbose filters rest
        (r.1, list_test_program verbose filters tcs ++ r.2.1, r.2.2)
      | Except.error e =>
        let r := run_list_loop verbose filters rest
        (false, r.2.1,
          ("Cannot load test case list for '" ++ tp.relative_path ++ "': " ++ e)
            :: r.2.2)
    else
      run_list_loop verbose filters rest

/-- Translation of `cli::cmd_list::run`: runs the loop over every test
program, then returns `EXIT_FAILURE` when some filter went unused or some
matched program failed to load, `EXIT_SUCCESS` otherwise, together with
the output and warning lines. -/
def cmd_list_run (verbose : Bool) (filters : filters_state)
    (tps : List test_program) : Nat × List String × List String :=
  let r := run_list_loop verbose filters tps
  (if filters.report_unused_filters || !r.1 then EXIT_FAILURE else EXIT_SUCCESS,
   r.2.1, r.2.2)

/-- Unfolds the argv-printing loop into an indexed map over the
arguments. -/
theorem print_args_lines_eq_mapIdx (args : List String) (k : Nat) :
    print_args_lines k args =
      args.mapIdx (fun i a => "argv[" ++ toString (i + k) ++ "] = " ++ a) := by
  induction args generalizing k with
  | nil => simp [print_args_lines]
  | cons a rest ih =>
    rw [print_args_lines, List.mapIdx_cons, ih (k + 1)]
    have harg :
        (fun i (b : String) =>
            "argv[" ++ toString (i + (k + 1)) ++ "] = " ++ b) =
          fun i (b : String) => "argv[" ++ toString (i + 1 + k) ++ "] = " ++ b := by
      funext i b
      have h2 : i + (k + 1) = i + 1 + k := by omega
      rw [h2]
    rw [harg]
    simp

/-- Claim C7: every status is exactly one of Exited or Signaled: the two
predicates are mutually exclusive and exhaustive, and the exit code,
signal number and core dump flag are present exactly for the matching
kind. -/
theorem status_exclusive_kinds (s : status) :
    ((s.isExited = true ∧ s.isSignaled = false) ∨
      (s.isExited = false ∧ s.isSignaled = true)) ∧
    ((∃ c, s.exitstatus = some c) ↔ s.isExited = true) ∧
    ((∃ n, s.termsig = some n) ↔ s.isSignaled = true) ∧
    ((∃ b, s.coredump = some b) ↔ s.isSignaled = true) := by
  cases s <;>
    simp [status.isExited, status.isSignaled, status.exitstatus,
      status.termsig, status.coredump]

/-- Claim C2: wait-for-any invoked with an empty tracking table does not
block: it fails synchronously with an error carrying the originating OS
error code ECHILD, distinguishable from other failures. -/
theorem wait_any_empty_echild (choice : Nat) :
    ∃ e, wait_any choice ([] : reaper_table) = Except.error e ∧
      e.original_errno = ECHILD ∧
      ∃ r, e.message = "Failed to wait" ++ r := by
  refine ⟨⟨"Failed to wait for any process", ECHILD⟩, ?_, rfl,
    " for any process", by rfl⟩
  simp [wait_any]

/-- Claim C1: spawning the exec body with a program path that does not
name an executable file (streams captured to files) makes the child
terminate by SIGABRT — never by a clean exit — with a
`Failed to execute <path>` diagnostic in the captured stderr, and
waiting on the handle returns that signalled status. -/
theorem exec_fail_signaled_abrt (w : world) (program : String)
    (args : List String) (hfork : w.fork_ok = true)
    (hprog : w.programs program = none) :
    ∃ oc, fork_files_exec w program args = Except.ok oc ∧
      oc.wait_status.isSignaled = true ∧
      oc.wait_status.termsig = some SIGABRT ∧
      oc.wait_status.isExited = false ∧
      (∀ c, oc.wait_status ≠ status.exited c) ∧
      ∃ line ∈ oc.stderr_file, ∃ r,
        line = "Failed to execute " ++ program ++ r := by
  refine ⟨exec w program args, by simp [fork_files_exec, hfork],
    ?_, ?_, ?_, ?_, ?_⟩ <;>
    simp [exec, hprog, status.isSignaled, status.termsig, status.isExited]

/-- Witness for C1 at a concrete world and program path. -/
theorem exec_fail_signaled_abrt_witness :
    ∃ oc, fork_files_exec ⟨fun _ => none, true, true⟩ "non-existent" [] =
        Except.ok oc ∧
      oc.wait_status.isSignaled = true ∧
      oc.wait_status.termsig = some SIGABRT ∧
      oc.wait_status.isExited = false ∧
      (∀ c, oc.wait_status ≠ status.exited c) ∧
      ∃ line ∈ oc.stderr_file, ∃ r,
        line = "Failed to execute " ++ "non-existent" ++ r :=
  exec_fail_signaled_abrt ⟨fun _ => none, true, true⟩ "non-existent" [] rfl rfl

/-- Claim C5: the exec body with a zero-length argument vector against
the helpers binary (which requires at least one argument) yields
Exited(EXIT_FAILURE), not a signal, and the captured stderr carries the
fixed `Must provide a helper name` diagnostic. -/
theorem exec_no_args_failure (w : world) (program : String)
    (hfork : w.fork_ok = true)
    (hprog : w.programs program = some helpers_behavior) :
    ∃ oc, fork_files_exec w program [] = Except.ok oc ∧
      oc.wait_status = status.exited EXIT_FAILURE ∧
      oc.wait_status.isExited = true ∧
      oc.wait_status.isSignaled = false ∧
      ∃ line ∈ oc.stderr_file, ∃ r,
        line = "Must provide a helper name" ++ r := by
  refine ⟨exec w program [], by simp [fork_files_exec, hfork],
    ?_, ?_, ?_, ?_⟩ <;>
    simp [exec, hprog, helpers_behavior, status.isExited, status.isSignaled]
  exact ⟨"", by rfl⟩

/-- Witness for C5 at a concrete world and program path. -/
theorem exec_no_args_failure_witness :
    ∃ oc, fork_files_exec ⟨fun _ => some helpers_behavior, true, true⟩
        "helpers" [] = Except.ok oc ∧
      oc.wait_status = status.exited EXIT_FAILURE ∧
      oc.wait_status.isExited = true ∧
      oc.wait_status.isSignaled = false ∧
      ∃ line ∈ oc.stderr_file, ∃ r,
        line = "Must provide a helper name" ++ r :=
  exec_no_args_failure ⟨fun _ => some helpers_behavior, true, true⟩
    "helpers" rfl rfl

/-- Claim C4: spawning the exec body on a valid external program (the
helpers binary dispatched to print-args) with capture enabled and
waiting yields Exited with the program's actual exit code, and the
captured stdout holds one `argv[i] = value` line per argument, in order,
1-indexed, argv[0] coming implicitly from the program path. -/
theorem exec_some_args_output (w : world) (program : String)
    (rest : List String) (hfork : w.fork_ok = true)
    (hprog : w.programs program = some helpers_behavior) :
    ∃ oc, fork_files_exec w program ("print-args" :: rest) = Except.ok oc ∧
      oc.wait_status =
        status.exited
          (helpers_behavior (program :: "print-args" :: rest)).exit_code ∧
      oc.wait_status = status.exited EXIT_SUCCESS ∧
      oc.stdout_file =
        ("print-args" :: rest).mapIdx
          (fun i a => "argv[" ++ toString (i + 1) ++ "] = " ++ a) := by
  refine ⟨exec w program ("print-args" :: rest),
    by simp [fork_files_exec, hfork], ?_, ?_, ?_⟩ <;>
    simp [exec, hprog, helpers_behavior, print_args_lines_eq_mapIdx]

/-- Witness for C4 at a concrete world, program path and arguments. -/
theorem exec_some_args_output_witness :
    ∃ oc, fork_files_exec ⟨fun _ => some helpers_behavior, true, true⟩
        "helpers" ("print-args" :: ["foo", "bar"]) = Except.ok oc ∧
      oc.wait_status =
        status.exited
          (helpers_behavior
            ("helpers" :: "print-args" :: ["foo", "bar"])).exit_code ∧
      oc.wait_status = status.exited EXIT_SUCCESS ∧
      oc.stdout_file =
        ("print-args" :: ["foo", "bar"]).mapIdx
          (fun i a => "argv[" ++ toString (i + 1) ++ "] = " ++ a) :=
  exec_some_args_output ⟨fun _ => some helpers_behavior, true, true⟩
    "helpers" ["foo", "bar"] rfl rfl

/-- Claim C6: an exec failure inside the child is never reported
synchronously: when duplication succeeds, the parent-side spawn and the
subsequent wait complete without any error, whatever the program path,
and a failed exec is observable only through the abort-signal terminal
status and the captured stderr. -/
theorem exec_failure_not_synchronous (w : world) (program : String)
    (args : List String) (hfork : w.fork_ok = true) :
    (∀ e, fork_files_exec w program args ≠ Except.error e) ∧
    ∃ oc, fork_files_exec w program args = Except.ok oc ∧
      (w.programs program = none →
        oc.wait_status.termsig = some SIGABRT ∧
        oc.wait_status.isExited = false ∧
        ∃ line ∈ oc.stderr_file, ∃ r,
          line = "Failed to execute " ++ program ++ r) := by
  refine ⟨by simp [fork_files_exec, hfork],
    exec w program args, by simp [fork_files_exec, hfork], ?_⟩
  intro hprog
  refine ⟨?_, ?_, ?_⟩ <;>
    simp [exec, hprog, status.termsig, status.isExited]

/-- Witness for C6 at a concrete world with a non-executable path. -/
theorem exec_failure_not_synchronous_witness :
    (∀ e, fork_files_exec ⟨fun _ => none, true, true⟩ "non-existent" [] ≠
        Except.error e) ∧
    ∃ oc, fork_files_exec ⟨fun _ => none, true, true⟩ "non-existent" [] =
        Except.ok oc ∧
      ((⟨fun _ => none, true, true⟩ : world).programs "non-existent" = none →
        oc.wait_status.termsig = some SIGABRT ∧
        oc.wait_status.isExited = false ∧
        ∃ line ∈ oc.stderr_file, ∃ r,
          line = "Failed to execute " ++ "non-existent" ++ r) :=
  exec_failure_not_synchronous ⟨fun _ => none, true, true⟩ "non-existent" [] rfl

/-- Re-consing the selected element onto the rest of the list permutes
the original list. -/
theorem get_cons_eraseIdx_perm {α : Type} (l : List α) (i : Nat)
    (h : i < l.length) : (l.get ⟨i, h⟩ :: l.eraseIdx i).Perm l := by
  induction l generalizing i with
  | nil => simp at h
  | cons a t ih =>
    cases i with
    | zero => simp
    | succ n =>
      have hn : n < t.length := Nat.lt_of_succ_lt_succ h
      have hswap := List.Perm.swap a (t.get ⟨n, hn⟩) (t.eraseIdx n)
      have htail := (ih n hn).cons a
      simpa using hswap.trans htail

/-- Claim C3: spawning N capture-only children that terminate with
distinct exit codes and calling wait-for-any exactly N times returns each
child exactly once: whatever the completion order, the collected
(pid, status) pairs are a permutation of the spawned ones, and so is the
collection of statuses. -/
theorem wait_any_many_perm (choices : List Nat) (table : reaper_table)
    (h : choices.length = table.length) :
    (wait_all choices table).1.Perm table ∧
    ((wait_all choices table).1.map Prod.snd).Perm (table.map Prod.snd) := by
  suffices hperm : (wait_all choices table).1.Perm table from
    ⟨hperm, hperm.map Prod.snd⟩
  induction choices generalizing table with
  | nil =>
    have htab : table = [] := List.eq_nil_of_length_eq_zero h.symm
    simp [wait_all, htab]
  | cons c cs ih =>
    have hpos : 0 < table.length := by
      simp only [List.length_cons] at h
      omega
    have hne : ¬ table.length = 0 := by omega
    have hi : c % table.length < table.length := Nat.mod_lt _ hpos
    have hwa : wait_any c table =
        Except.ok (table.get ⟨c % table.length, hi⟩,
          table.eraseIdx (c % table.length)) := by
      simp [wait_any, hne]
    have hlen2 : cs.length = (table.eraseIdx (c % table.length)).length := by
      have hplus := List.length_eraseIdx_add_one (l := table)
        (i := c % table.length) hi
      simp only [List.length_cons] at h
      omega
    have ihp := ih (table.eraseIdx (c % table.length)) hlen2
    show (wait_all (c :: cs) table).1.Perm table
    simp only [wait_all, hwa]
    exact (ihp.cons _).trans (get_cons_eraseIdx_perm table _ hi)

/-- Witness for C3 at a concrete table of three children with distinct
exit codes. -/
theorem wait_any_many_perm_witness :
    (wait_all [0, 0, 0]
        [(1, status.exited 15), (2, status.exited 30),
         (3, status.exited 45)]).1.Perm
      [(1, status.exited 15), (2, status.exited 30), (3, status.exited 45)] ∧
    ((wait_all [0, 0, 0]
        [(1, status.exited 15), (2, status.exited 30),
         (3, status.exited 45)]).1.map Prod.snd).Perm
      ([(1, status.exited 15), (2, status.exited 30),
        (3, status.exited 45)].map Prod.snd) :=
  wait_any_many_perm [0, 0, 0]
    [(1, status.exited 15), (2, status.exited 30), (3, status.exited 45)] rfl

/-- Erasing a table entry never adds a tracked pid. -/
theorem not_mem_pids_eraseIdx {pid : Nat} {t : reaper_table}
    (h : pid ∉ pids t) (i : Nat) : pid ∉ pids (t.eraseIdx i) :=
  fun hm => h ((List.Sublist.map Prod.fst (List.eraseIdx_sublist t i)).subset hm)

/-- A spawn prepends its pid to the tracked pids. -/
theorem pids_cons (p : Nat) (st : status) (t : reaper_table) :
    pids ((p, st) :: t) = p :: pids t := rfl

/-- A wait step against an empty table reports the failure and leaves the
table unchanged. -/
theorem step_wait_of_empty (c : Nat) (t : reaper_table)
    (h : t.length = 0) :
    step t (reaper_op.wait c) =
      (t, reaper_event.wait_failed ⟨"Failed to wait for any process", ECHILD⟩) := by
  simp [step, wait_any, h]

/-- A wait step against a nonempty table reaps the selected entry and
erases it from the table. -/
theorem step_wait_of_pos (c : Nat) (t : reaper_table)
    (h : ¬ t.length = 0) :
    ∃ hlt : c % t.length < t.length,
      step t (reaper_op.wait c) =
        (t.eraseIdx (c % t.length),
         reaper_event.reaped (t.get ⟨c % t.length, hlt⟩).1
           (t.get ⟨c % t.length, hlt⟩).2) := by
  refine ⟨Nat.mod_lt _ (Nat.pos_of_ne_zero h), ?_⟩
  simp [step, wait_any, h]

/-- A reaped event for a pid that is not currently tracked can only come
after a spawn of that pid earlier in the operation sequence. -/
theorem reaped_needs_spawn (ops : List reaper_op) :
    ∀ (t : reaper_table) (pid : Nat) (st : status) (m : Nat),
      pid ∉ pids t →
      (run_ops t ops)[m]? = some (reaper_event.reaped pid st) →
      ∃ k st2, k < m ∧ ops[k]? = some (reaper_op.spawn pid st2) := by
  induction ops with
  | nil =>
    intro t pid st m hmem hev
    simp [run_ops] at hev
  | cons op ops ih =>
    intro t pid st m hmem hev
    cases m with
    | zero =>
      exfalso
      cases op with
      | spawn q st1 => simp [run_ops, step] at hev
      | wait c =>
        by_cases hlen : t.length = 0
        · simp [run_ops, step_wait_of_empty c t hlen] at hev
        · obtain ⟨hlt, hstep⟩ := step_wait_of_pos c t hlen
          simp [run_ops, hstep] at hev
          apply hmem
          have hm : t.get ⟨c % t.length, hlt⟩ ∈ t := List.get_mem t _ _
          have hfst : (t.get ⟨c % t.length, hlt⟩).1 ∈ pids t :=
            List.mem_map_of_mem Prod.fst hm
          rw [List.get_eq_getElem] at hfst
          rwa [hev.1] at hfst
    | succ m1 =>
      have hev1 : (run_ops (step t op).1 ops)[m1]? =
          some (reaper_event.reaped pid st) := by
        simpa [run_ops] using hev
      cases op with
      | spawn q st1 =>
        by_cases hq : q = pid
        · subst hq
          exact ⟨0, st1, Nat.succ_pos m1, by simp⟩
        · have hmem1 : pid ∉ pids ((q, st1) :: t) := by
            rw [pids_cons]
            intro hmm
            rcases List.mem_cons.mp hmm with h1 | h1
            · exact hq h1.symm
            · exact hmem h1
          obtain ⟨k, st2, hk, hop⟩ := ih ((q, st1) :: t) pid st m1 hmem1 hev1
          exact ⟨k + 1, st2, Nat.succ_lt_succ hk, by simpa using hop⟩
      | wait c =>
        have hmem1 : pid ∉ pids (step t (reaper_op.wait c)).1 := by
          by_cases hlen : t.length = 0
          · rw [step_wait_of_empty c t hlen]
            exact hmem
          · obtain ⟨hlt, hstep⟩ := step_wait_of_pos c t hlen
            rw [hstep]
            exact not_mem_pids_eraseIdx hmem _
        obtain ⟨k, st2, hk, hop⟩ := ih _ pid st m1 hmem1 hev1
        exact ⟨k + 1, st2, Nat.succ_lt_succ hk, by simpa using hop⟩

/-- A fresh spawn or a wait preserves distinctness of the tracked pids. -/
theorem nodup_step (t : reaper_table) (op : reaper_op)
    (hnd : (pids t).Nodup) (hok : spawn_ok t op = true) :
    (pids (step t op).1).Nodup := by
  cases op with
  | spawn q st1 =>
    have hq : q ∉ pids t := by
      simpa [spawn_ok] using hok
    simpa [step, pids_cons, List.nodup_cons] using ⟨hq, hnd⟩
  | wait c =>
    by_cases hlen : t.length = 0
    · rw [step_wait_of_empty c t hlen]
      exact hnd
    · obtain ⟨hlt, hstep⟩ := step_wait_of_pos c t hlen
      rw [hstep]
      exact List.Nodup.sublist
        (List.Sublist.map Prod.fst (List.eraseIdx_sublist t _)) hnd

/-- Claim C8: over any sequence of spawn and wait-for-any operations in
which the OS assigns fresh pids, a pid returned by wait-for-any is never
returned a second time unless an intervening spawn reuses that pid: each
spawned child is reaped at most once. -/
theorem wait_any_no_double_reap (ops : List reaper_op) :
    ∀ (t : reaper_table) (i j pid : Nat) (sti stj : status),
      (pids t).Nodup → fresh_trace t ops = true → i < j →
      (run_ops t ops)[i]? = some (reaper_event.reaped pid sti) →
      (run_ops t ops)[j]? = some (reaper_event.reaped pid stj) →
      ∃ k st2, i < k ∧ k < j ∧ ops[k]? = some (reaper_op.spawn pid st2) := by
  induction ops with
  | nil =>
    intro t i j pid sti stj hnd hf hij hi hj
    simp [run_ops] at hi
  | cons op ops ih =>
    intro t i j pid sti stj hnd hf hij hi hj
    have hf1 : spawn_ok t op = true ∧ fresh_trace (step t op).1 ops = true := by
      simpa [fresh_trace, Bool.and_eq_true] using hf
    cases i with
    | zero =>
      cases op with
      | spawn q st1 =>
        exfalso
        simp [run_ops, step] at hi
      | wait c =>
        by_cases hlen : t.length = 0
        · exfalso
          simp [run_ops, step_wait_of_empty c t hlen] at hi
        · obtain ⟨hlt, hstep⟩ := step_wait_of_pos c t hlen
          have hget : (t.get ⟨c % t.length, hlt⟩).1 = pid ∧
              (t.get ⟨c % t.length, hlt⟩).2 = sti := by
            simpa [run_ops, hstep] using hi
          have hgone : pid ∉ pids (t.eraseIdx (c % t.length)) := by
            have hperm :=
              (get_cons_eraseIdx_perm t (c % t.length) hlt).map Prod.fst
            have hnd2 : ((t.get ⟨c % t.length, hlt⟩).1 ::
                pids (t.eraseIdx (c % t.length))).Nodup := by
              refine (List.Perm.nodup_iff ?_).mpr hnd
              simpa [pids] using hperm
            rw [hget.1] at hnd2
            exact (List.nodup_cons.mp hnd2).1
          cases j with
          | zero => omega
          | succ j1 =>
            have hj1 : (run_ops (t.eraseIdx (c % t.length)) ops)[j1]? =
                some (reaper_event.reaped pid stj) := by
              simpa [run_ops, hstep] using hj
            obtain ⟨k, st2, hk, hop⟩ :=
              reaped_needs_spawn ops _ pid stj j1 hgone hj1
            exact ⟨k + 1, st2, Nat.succ_pos k, Nat.succ_lt_succ hk,
              by simpa using hop⟩
    | succ i1 =>
      cases j with
      | zero => omega
      | succ j1 =>
        have hnd1 : (pids (step t op).1).Nodup := nodup_step t op hnd hf1.1
        have hi1 : (run_ops (step t op).1 ops)[i1]? =
            some (reaper_event.reaped pid sti) := by
          simpa [run_ops] using hi
        have hj1 : (run_ops (step t op).1 ops)[j1]? =
            some (reaper_event.reaped pid stj) := by
          simpa [run_ops] using hj
        obtain ⟨k, st2, hk1, hk2, hop⟩ :=
          ih _ i1 j1 pid sti stj hnd1 hf1.2 (Nat.lt_of_succ_lt_succ hij) hi1 hj1
        exact ⟨k + 1, st2, Nat.succ_lt_succ hk1, Nat.succ_lt_succ hk2,
          by simpa using hop⟩

/-- Witness for C8: a trace that reaps pid 5 twice, which forces the
intervening respawn of pid 5 to be found. -/
theorem wait_any_no_double_reap_witness :
    ∃ k st2, 1 < k ∧ k < 3 ∧
      ([reaper_op.spawn 5 (status.exited 0), reaper_op.wait 0,
        reaper_op.spawn 5 (status.exited 1), reaper_op.wait 0] :
          List reaper_op)[k]? = some (reaper_op.spawn 5 st2) :=
  wait_any_no_double_reap
    [reaper_op.spawn 5 (status.exited 0), reaper_op.wait 0,
     reaper_op.spawn 5 (status.exited 1), reaper_op.wait 0]
    [] 1 3 5 (status.exited 0) (status.exited 1)
    (by decide) (by decide) (by decide) (by decide) (by decide)

/-- The ok flag of the listing loop is true exactly when every matched
test program's test case list loaded without error. -/
theorem run_list_loop_ok (v : Bool) (f : filters_state)
    (tps : List test_program) :
    (run_list_loop v f tps).1 = true ↔
      ∀ tp ∈ tps, f.match_test_program tp.relative_path = true →
        tp.test_cases.isOk = true := by
  induction tps with
  | nil => simp [run_list_loop]
  | cons tp rest ih =>
    cases htc : tp.test_cases with
    | ok tcs =>
      by_cases hm : f.match_test_program tp.relative_path = true
      · simp [run_list_loop, hm, htc, List.forall_mem_cons, ih, Except.isOk,
          Except.toBool]
      · simp [run_list_loop, hm, htc, List.forall_mem_cons, ih]
    | error e =>
      by_cases hm : f.match_test_program tp.relative_path = true
      · simp [run_list_loop, hm, htc, List.forall_mem_cons, Except.isOk,
          Except.toBool]
      · simp [run_list_loop, hm, htc, List.forall_mem_cons, ih]

/-- Claim C9: the list subcommand returns EXIT_SUCCESS exactly when no
filter went unused and every matched test program's test case list
loaded without error; a matched program whose load fails contributes
exactly one warning line and leaves the listing of the remaining
programs unchanged. -/
theorem cmd_list_run_exit_code (v : Bool) (f : filters_state)
    (tps : List test_program) :
    ((cmd_list_run v f tps).1 = EXIT_SUCCESS ↔
      (f.report_unused_filters = false ∧
        ∀ tp ∈ tps, f.match_test_program tp.relative_path = true →
          tp.test_cases.isOk = true)) ∧
    (∀ tp e rest, f.match_test_program tp.relative_path = true →
      tp.test_cases = Except.error e →
      (run_list_loop v f (tp :: rest)).1 = false ∧
      (run_list_loop v f (tp :: rest)).2.1 = (run_list_loop v f rest).2.1 ∧
      (run_list_loop v f (tp :: rest)).2.2 =
        ("Cannot load test case list for '" ++ tp.relative_path ++ "': " ++ e)
          :: (run_list_loop v f rest).2.2) := by
  constructor
  · have hok := run_list_loop_ok v f tps
    simp only [cmd_list_run]
    cases hrep : f.report_unused_filters <;>
      cases hloop : (run_list_loop v f tps).1 <;>
        simp [hrep, hloop, EXIT_SUCCESS, EXIT_FAILURE, ← hok]
  · intro tp e rest hm htc
    refine ⟨?_, ?_, ?_⟩ <;> simp [run_list_loop, hm, htc]

/-- Witness for C9: a run with one matching, loadable test program and no
unused filters returns EXIT_SUCCESS. -/
theorem cmd_list_run_exit_code_witness :
    (cmd_list_run false ⟨fun _ => true, fun _ => true, false⟩
        [⟨"a", Except.ok []⟩]).1 = EXIT_SUCCESS :=
  (cmd_list_run_exit_code false ⟨fun _ => true, fun _ => true, false⟩
      [⟨"a", Except.ok []⟩]).1.mpr
    ⟨rfl, by
      intro tp hmem hm
      rw [List.mem_singleton] at hmem
      subst hmem
      rfl⟩

/-- Claim C10: the list subcommand prints exactly the test cases whose
identifier matches the filters, in order: a non-matching test case
produces no output, and in non-verbose mode each matching test case
produces exactly one line holding its identifier. -/
theorem list_test_program_filters (v : Bool) (f : filters_state)
    (tcs : List test_case) :
    list_test_program v f tcs =
      ((tcs.filter (fun tc => f.match_test_case tc.identifier)).map
        (list_test_case v)).flatten ∧
    list_test_program false f tcs =
      (tcs.filter (fun tc => f.match_test_case tc.identifier)).map
        (fun tc => tc.identifier) := by
  constructor
  · induction tcs with
    | nil => simp [list_test_program]
    | cons tc rest ih =>
      by_cases hm : f.match_test_case tc.identifier = true
      · simp [list_test_program, hm, List.filter_cons, ih]
      · simp [list_test_program, hm, List.filter_cons, ih]
  · induction tcs with
    | nil => simp [list_test_program]
    | cons tc rest ih =>
      by_cases hm : f.match_test_case tc.identifier = true
      · simp [list_test_program, hm, List.filter_cons, ih, list_test_case]
      · simp [list_test_program, hm, List.filter_cons, ih]

end Kyua
